import Mathlib

/-!
Verification development for the conversation-orchestration core of
`autogen_node` (Node.js/TypeScript multi-agent framework).

The data model and operations below are a shallow embedding of the core:
messages, the base conversational agent (history management, `send`, the
two-party `initiateChat` loop, termination detection), the group-chat
engine (construction, round-robin `run` loop, accessors), and the
LLM-backed `AssistantAgent.generateReply`.

The repository ships `src/agents/AssistantAgent.ts`, the providers and the
test suite, but the files `src/core/BaseAgent.ts`, `src/core/GroupChat.ts`
and `src/core/IAgent.ts` are not present in the source tree (only their
tests and callers are).  Definitions for those classes are therefore
modelled from the specification (each is marked `Modelled from the spec:`),
constrained by the behaviour pinned in `src/__tests__/BaseAgent.test.ts`;
`AssistantAgent.generateReply` is embedded from the actual source.
-/

/-- Message role, from the `IMessage` shape documented in the README and
used throughout the source: one of user / assistant / system / function. -/
inductive Role where
  | system
  | user
  | assistant
  | function
deriving DecidableEq, Repr

/-- The `IMessage` value: `role`, `content` (always present), optional
`name` of the originating participant, optional reserved `functionCall`
(name + serialized-arguments pair, unused by current flows). -/
structure Message where
  role : Role
  content : String
  name : Option String := none
  functionCall : Option (String × String) := none
deriving DecidableEq, Repr

/-- `startsWithL pat l` holds when the code-point list `l` begins with the
code-point list `pat`. -/
def startsWithL : List Nat → List Nat → Bool
  | [], _ => true
  | _ :: _, [] => false
  | p :: ps, c :: cs => p == c && startsWithL ps cs

/-- `hasSubL pat l` holds when `pat` occurs as a contiguous run inside `l`. -/
def hasSubL (pat : List Nat) : List Nat → Bool
  | [] => startsWithL pat []
  | c :: cs => startsWithL pat (c :: cs) || hasSubL pat cs

/-- The code points of a string. -/
def codes (s : String) : List Nat :=
  s.toList.map Char.toNat

/-- ASCII lower-casing of one code point, the fragment of JavaScript's
`toLowerCase()` relevant to the ASCII termination tokens. -/
def lowerCode (n : Nat) : Nat :=
  if 65 ≤ n ∧ n ≤ 90 then n + 32 else n

/-- Lower-cased code points of a string. -/
def lowerCodes (s : String) : List Nat :=
  (codes s).map lowerCode

/-- Case-insensitive executable substring test: `pat` (given lower-case)
occurs in the lower-cased content. -/
def containsSub (content pat : String) : Bool :=
  hasSubL (codes pat) (lowerCodes content)

/-- Modelled from the spec: `BaseAgent.isTerminationMessage` (the file
`src/core/BaseAgent.ts` is absent from the tree).  A message signals
termination if its content, case-insensitively, contains the literal token
"terminate" or the literal token "goodbye". -/
def isTerminationMessage (m : Message) : Bool :=
  containsSub m.content "terminate" || containsSub m.content "goodbye"

/-- Specification-level reading of "contains, compared case-insensitively,
the substring `token`": some decomposition of the lower-cased content
exhibits the token as a contiguous factor. -/
def containsCI (s token : String) : Prop :=
  ∃ l r, lowerCodes s = l ++ codes token ++ r

/-- Modelled from the spec: the mutable per-agent state of `BaseAgent`:
configured name, optional system prompt, and the exclusively owned
conversation history. -/
structure AgentState where
  name : String
  systemMessage : Option String := none
  conversationHistory : List Message := []

/-- Modelled from the spec: `BaseAgent.addToHistory` appends one message
to the agent's own history. -/
def addToHistory (a : AgentState) (m : Message) : AgentState :=
  { a with conversationHistory := a.conversationHistory ++ [m] }

/-- Modelled from the spec: `BaseAgent.clearHistory` resets the history to
empty, except the leading system message is re-inserted if one is
configured.  Total: no error conditions. -/
def clearHistory (a : AgentState) : AgentState :=
  { a with conversationHistory :=
      match a.systemMessage with
      | some s => [{ role := .system, content := s }]
      | none => [] }

/-- The input of `send`: a plain string or a full `IMessage`. -/
inductive SendInput where
  | str (s : String)
  | msg (m : Message)

/-- Modelled from the spec: `send` normalizes a plain string into a
user-tagged message and passes a full message through unchanged. -/
def normalizeMessage : SendInput → Message
  | .str s => { role := .user, content := s }
  | .msg m => m

/-- Modelled from the spec: `BaseAgent.send`.  The normalized message is
appended to the sender's own history; if `requestReply` is true the
recipient's reply capability is invoked once with the recipient's
accumulated history plus the new message, the reply is appended to the
sender's history as well and returned; otherwise no reply is returned and
the recipient is never invoked.  The final component counts how many times
the recipient's reply capability was invoked. -/
def send (sender : AgentState) (input : SendInput)
    (recipientReply : List Message → Message) (recipientHist : List Message)
    (requestReply : Bool) : AgentState × Option Message × Nat :=
  let m := normalizeMessage input
  let sender' := addToHistory sender m
  if requestReply then
    let reply := recipientReply (recipientHist ++ [m])
    (addToHistory sender' reply, some reply, 1)
  else
    (sender', none, 0)

/-- Behavioural view of an agent as consumed by the conversation loops:
its name and its reply capability (`generateReply`), a function from the
accumulated transcript to a reply message. -/
structure AgentBeh where
  name : String
  reply : List Message → Message

/-- Fallback participant used only to totalize list indexing; every
theorem below guards indices so it is never reached. -/
def defaultAgentBeh : AgentBeh :=
  { name := "", reply := fun _ => { role := .assistant, content := "" } }

/-- Modelled from the spec: the two-party loop of
`BaseAgent.initiateChat`.  `fuel` counts the remaining message slots out
of `maxRounds`; each iteration records the current message on the
chronological transcript `acc` (kept reversed), stops if it signals
termination, and otherwise obtains the receiver's reply to the transcript
so far and swaps the sides. -/
def chatStep (sender receiver : AgentBeh) :
    Nat → Message → List Message → List Message
  | 0, _, acc => acc.reverse
  | fuel + 1, current, acc =>
    let acc' := current :: acc
    if isTerminationMessage current then acc'.reverse
    else chatStep receiver sender fuel (receiver.reply acc'.reverse) acc'

/-- Modelled from the spec: `BaseAgent.initiateChat` drives the two-party
loop from the normalized initial message, alternating strictly between
initiator and recipient, until a termination condition is detected in the
latest message or `maxRounds` exchanges have occurred; it returns the full
chronological sequence of exchanged messages. -/
def initiateChat (initiator recipient : AgentBeh)
    (initialMessage : String) (maxRounds : Nat) : List Message :=
  chatStep initiator recipient maxRounds
    { role := .user, content := initialMessage } []

/-- Modelled from the spec: the construction input of `GroupChat`
(`src/core/GroupChat.ts` is absent from the tree): participant agents, an
optional round budget (default 10) and an optional admin label. -/
structure GroupChatConfig where
  agents : List AgentBeh
  maxRound : Option Nat := none
  adminName : Option String := none

/-- Modelled from the spec: the `GroupChat` session state: fixed
participant list, shared transcript, round budget, admin label. -/
structure GroupChat where
  agents : List AgentBeh
  messages : List Message := []
  maxRound : Nat := 10
  adminName : Option String := none

/-- Modelled from the spec: the `GroupChat` constructor fails with a
configuration error when fewer than 2 participants are supplied (the test
suite pins the message "GroupChat requires at least 2 agents"), and
otherwise builds a session with an empty transcript and round budget
defaulting to 10. -/
def mkGroupChat (c : GroupChatConfig) : Except String GroupChat :=
  if c.agents.length < 2 then
    .error "GroupChat requires at least 2 agents"
  else
    .ok { agents := c.agents, messages := [],
          maxRound := c.maxRound.getD 10, adminName := c.adminName }

/-- Modelled from the spec: the session appends a speaker's reply to the
shared transcript tagged with the speaker's name. -/
def tagReply (speaker : AgentBeh) (transcript : List Message) : Message :=
  { speaker.reply transcript with name := some speaker.name }

/-- Modelled from the spec: the round loop of `GroupChat.run`.  `i` is the
zero-based reply counter (round `k = i + 1`), `fuel` the remaining rounds
of the budget; each round selects the speaker by strict round-robin over
the participant list, solicits its reply to the entire transcript so far,
appends the name-tagged reply, and stops immediately if the newly appended
message satisfies the termination predicate. -/
def runLoop (agents : List AgentBeh) :
    Nat → Nat → List Message → List Message
  | _, 0, t => t
  | i, fuel + 1, t =>
    let speaker := agents.getD (i % agents.length) defaultAgentBeh
    let reply := tagReply speaker t
    let t' := t ++ [reply]
    if isTerminationMessage reply then t' else runLoop agents (i + 1) fuel t'

/-- Modelled from the spec: `GroupChat.run` appends the initial message
(role "user") to the transcript as round 0 and runs up to `maxRound`
round-robin rounds, returning the updated session together with the
transcript. -/
def GroupChat.run (gc : GroupChat) (initialMessage : String) :
    GroupChat × List Message :=
  let seed : Message := { role := .user, content := initialMessage }
  let transcript := runLoop gc.agents 0 gc.maxRound (gc.messages ++ [seed])
  ({ gc with messages := transcript }, transcript)

/-- Modelled from the spec: `GroupChat.addMessage` externally appends a
message to the transcript without triggering a turn. -/
def GroupChat.addMessage (gc : GroupChat) (m : Message) : GroupChat :=
  { gc with messages := gc.messages ++ [m] }

/-- Modelled from the spec: `GroupChat.reset` clears the transcript while
the participant list and configuration survive. -/
def GroupChat.reset (gc : GroupChat) : GroupChat :=
  { gc with messages := [] }

/-- A heap of mutable array cells, used to make reference identity and
in-place mutation of returned collections observable, so that the
defensive-copy contract of the accessors can be stated. -/
structure Store (α : Type) where
  cells : List α

/-- Allocate a fresh cell holding `v`; returns the new store and the
reference to the fresh cell. -/
def Store.alloc {α : Type} (st : Store α) (v : α) : Store α × Nat :=
  ({ cells := st.cells ++ [v] }, st.cells.length)

/-- Read the cell `r` (default `d` when out of range). -/
def Store.read {α : Type} (st : Store α) (r : Nat) (d : α) : α :=
  st.cells.getD r d

/-- Overwrite the cell `r` in place. -/
def Store.write {α : Type} (st : Store α) (r : Nat) (v : α) : Store α :=
  { cells := st.cells.set r v }

/-- Modelled from the spec: `BaseAgent.getConversationHistory` returns a
defensive copy of the ordered message sequence — a freshly allocated array
whose contents equal the internal history. -/
def getConversationHistory (a : AgentState) (st : Store (List Message)) :
    Store (List Message) × Nat :=
  st.alloc a.conversationHistory

/-- Modelled from the spec: `GroupChat.getMessages` returns a defensive
copy of the transcript. -/
def GroupChat.getMessages (gc : GroupChat) (st : Store (List Message)) :
    Store (List Message) × Nat :=
  st.alloc gc.messages

/-- Modelled from the spec: `GroupChat.getAgents` returns a defensive copy
of the participant list. -/
def GroupChat.getAgents (gc : GroupChat) (st : Store (List AgentBeh)) :
    Store (List AgentBeh) × Nat :=
  st.alloc gc.agents

/-- Behavioural view of a fallible participant: its reply capability may
fail (backend, network or cancellation error, abstracted as the carried
error message). -/
structure AgentBehE where
  name : String
  replyE : List Message → Except String Message

/-- Embedded from `src/agents/AssistantAgent.ts` (`generateReply`): the
provider call `llmProvider.generateCompletion(messages, cancellationToken)`
is abstracted by its outcome `providerResult`.  On success the content is
wrapped into an assistant-role message named after the agent, appended to
the agent's own history via `addToHistory`, and returned; on failure the
error is rethrown wrapped as "Failed to generate reply: <cause>" and the
state is left unchanged. -/
def generateReplyA (a : AgentState) (providerResult : Except String String) :
    AgentState × Except String Message :=
  match providerResult with
  | .ok content =>
    let reply : Message := { role := .assistant, content := content, name := some a.name }
    (addToHistory a reply, .ok reply)
  | .error e => (a, .error ("Failed to generate reply: " ++ e))

/-- Modelled from the spec: the fallible variant of `send`.  The sent
message is appended to the sender's history before the recipient is
awaited; an error surfaced by the recipient's reply capability propagates
unchanged (no retry, no substituted reply), while the already-appended
message remains in the sender's history. -/
def sendE (sender : AgentState) (input : SendInput)
    (recipientReply : List Message → Except String Message)
    (recipientHist : List Message) (requestReply : Bool) :
    AgentState × Except String (Option Message) :=
  let m := normalizeMessage input
  let sender' := addToHistory sender m
  if requestReply then
    match recipientReply (recipientHist ++ [m]) with
    | .error e => (sender', .error e)
    | .ok reply => (addToHistory sender' reply, .ok (some reply))
  else
    (sender', .ok none)

/-- Modelled from the spec: the fallible two-party loop.  A failure of the
receiver's reply capability halts the loop at once; the messages recorded
before the failing turn are returned together with the propagated error. -/
def chatStepE (sender receiver : AgentBehE) :
    Nat → Message → List Message → List Message × Option String
  | 0, _, acc => (acc.reverse, none)
  | fuel + 1, current, acc =>
    let acc' := current :: acc
    if isTerminationMessage current then (acc'.reverse, none)
    else
      match receiver.replyE acc'.reverse with
      | .error e => (acc'.reverse, some e)
      | .ok rep => chatStepE receiver sender fuel rep acc'

/-- Modelled from the spec: `initiateChat` over fallible participants. -/
def initiateChatE (initiator recipient : AgentBehE)
    (initialMessage : String) (maxRounds : Nat) :
    List Message × Option String :=
  chatStepE initiator recipient maxRounds
    { role := .user, content := initialMessage } []

/-- Mock participant that always replies "Continue" (as `agent1` in the
max-rounds test). -/
def contAgent1 : AgentBeh :=
  { name := "agent1",
    reply := fun _ => { role := .assistant, content := "Continue", name := some "agent1" } }

/-- Mock participant that always replies "Continue" (as `agent2`). -/
def contAgent2 : AgentBeh :=
  { name := "agent2",
    reply := fun _ => { role := .assistant, content := "Continue", name := some "agent2" } }

/-- Mock participant that always replies "TERMINATE". -/
def termAgent : AgentBeh :=
  { name := "agent2",
    reply := fun _ => { role := .assistant, content := "TERMINATE", name := some "agent2" } }

/-- Mock group participant with a fixed canned reply. -/
def cannedAgent (nm rep : String) : AgentBeh :=
  { name := nm, reply := fun _ => { role := .assistant, content := rep, name := some nm } }

/-- A three-participant demo session with round budget 5 and canned,
never-terminating replies. -/
def demoGroupChat : GroupChat :=
  { agents := [cannedAgent "a1" "r1", cannedAgent "a2" "r2", cannedAgent "a3" "r3"],
    maxRound := 5 }

/-- A two-participant demo session whose first speaker replies
"TERMINATE" on its first turn. -/
def termGroupChat : GroupChat :=
  { agents := [cannedAgent "agent1" "TERMINATE", cannedAgent "agent2" "Response"],
    maxRound := 10 }

/-- Fallible mock whose reply capability always fails with "boom". -/
def failingAgent : AgentBehE :=
  { name := "agent2", replyE := fun _ => .error "boom" }

/-- Fallible mock whose reply capability always succeeds. -/
def okAgent : AgentBehE :=
  { name := "agent1",
    replyE := fun _ => .ok { role := .assistant, content := "hi", name := some "agent1" } }

/-- Concrete agent with a configured system prompt and non-trivial
history, as in the clear-history test. -/
def sysAgent : AgentState :=
  { name := "agent",
    systemMessage := some "System prompt",
    conversationHistory :=
      [{ role := .system, content := "System prompt" },
       { role := .user, content := "Hello" }] }

theorem startsWithL_iff (pat l : List Nat) :
    startsWithL pat l = true ↔ ∃ r, l = pat ++ r := by
  induction pat generalizing l with
  | nil =>
    simp [startsWithL]
  | cons p ps ih =>
    cases l with
    | nil =>
      simp [startsWithL]
    | cons c cs =>
      simp only [startsWithL, Bool.and_eq_true, beq_iff_eq, ih]
      constructor
      · rintro ⟨rfl, r, rfl⟩
        exact ⟨r, rfl⟩
      · rintro ⟨r, hr⟩
        obtain ⟨h1, h2⟩ := List.cons.inj hr
        exact ⟨h1.symm, r, h2⟩

theorem hasSubL_iff (pat l : List Nat) :
    hasSubL pat l = true ↔ ∃ l1 l2, l = l1 ++ pat ++ l2 := by
  induction l with
  | nil =>
    simp only [hasSubL, startsWithL_iff]
    constructor
    · rintro ⟨r, hr⟩
      rcases List.append_eq_nil.mp hr.symm with ⟨h1, h2⟩
      exact ⟨[], [], by simp [h1]⟩
    · rintro ⟨l1, l2, h⟩
      rcases List.append_eq_nil.mp h.symm with ⟨h1, h2⟩
      rcases List.append_eq_nil.mp h1 with ⟨h3, h4⟩
      exact ⟨[], by simp [h4]⟩
  | cons c cs ih =>
    simp only [hasSubL, Bool.or_eq_true, startsWithL_iff, ih]
    constructor
    · rintro (⟨r, hr⟩ | ⟨l1, l2, h⟩)
      · exact ⟨[], r, by simpa using hr⟩
      · exact ⟨c :: l1, l2, by simp [h]⟩
    · rintro ⟨l1, l2, h⟩
      cases l1 with
      | nil =>
        exact Or.inl ⟨l2, by simpa using h⟩
      | cons a as =>
        obtain ⟨h1, h2⟩ := List.cons.inj h
        exact Or.inr ⟨as, l2, h2⟩

theorem containsSub_iff_containsCI (s token : String) :
    containsSub s token = true ↔ containsCI s token := by
  unfold containsSub containsCI
  exact hasSubL_iff _ _

theorem getD_append_length {α : Type} (l : List α) (v d : α) :
    (l ++ [v]).getD l.length d = v := by
  simp [List.getD, List.getElem?_concat_length]

theorem getD_set_self {α : Type} (l : List α) (n : Nat) (v d : α)
    (h : n < l.length) : (l.set n v).getD n d = v := by
  simp [List.getD, List.getElem?_set_self, h]

theorem store_alloc_read {α : Type} (st : Store α) (v d : α) :
    (st.alloc v).1.read (st.alloc v).2 d = v :=
  getD_append_length _ _ _

theorem store_write_alloc_read {α : Type} (st : Store α) (v w d : α) :
    ((st.alloc v).1.write (st.alloc v).2 w).read (st.alloc v).2 d = w :=
  getD_set_self _ _ _ _ (by simp [Store.alloc])

/-- C1: a message is classified as a termination message iff its content,
compared case-insensitively, contains the substring "terminate" or the
substring "goodbye"; a message containing neither token in any case is not
a termination message. -/
theorem isTerminationMessage_iff (m : Message) :
    (isTerminationMessage m = true ↔
      (containsCI m.content "terminate" ∨ containsCI m.content "goodbye")) ∧
    (¬(containsCI m.content "terminate" ∨ containsCI m.content "goodbye") →
      isTerminationMessage m = false) := by
  have key : isTerminationMessage m = true ↔
      (containsCI m.content "terminate" ∨ containsCI m.content "goodbye") := by
    unfold isTerminationMessage
    rw [Bool.or_eq_true, containsSub_iff_containsCI, containsSub_iff_containsCI]
  refine ⟨key, fun h => ?_⟩
  cases hb : isTerminationMessage m with
  | false => rfl
  | true => exact absurd (key.mp hb) h

/-- C1 witness: the theorem applied to the concrete non-terminating test
message of the suite. -/
theorem isTerminationMessage_iff_witness :
    isTerminationMessage { role := .assistant, content := "This is a normal message" } = false :=
  (isTerminationMessage_iff { role := .assistant, content := "This is a normal message" }).2
    (by
      rintro (h | h)
      · have hb := (containsSub_iff_containsCI "This is a normal message" "terminate").mpr h
        have hf : containsSub "This is a normal message" "terminate" = false := by decide
        rw [hf] at hb
        exact Bool.noConfusion hb
      · have hb := (containsSub_iff_containsCI "This is a normal message" "goodbye").mpr h
        have hf : containsSub "This is a normal message" "goodbye" = false := by decide
        rw [hf] at hb
        exact Bool.noConfusion hb)

/-- C4: constructing a `GroupChat` with fewer than 2 participants fails
synchronously with the configuration error, and with 2 or more
participants it succeeds. -/
theorem mkGroupChat_arity (c : GroupChatConfig) :
    (c.agents.length < 2 →
      mkGroupChat c = .error "GroupChat requires at least 2 agents") ∧
    (2 ≤ c.agents.length → ∃ gc, mkGroupChat c = .ok gc) := by
  constructor
  · intro h
    simp [mkGroupChat, h]
  · intro h
    refine ⟨{ agents := c.agents, messages := [],
              maxRound := c.maxRound.getD 10, adminName := c.adminName }, ?_⟩
    simp [mkGroupChat, Nat.not_lt.mpr h]

/-- C4 witness: one participant fails, two participants succeed. -/
theorem mkGroupChat_arity_witness :
    mkGroupChat { agents := [contAgent1] } = .error "GroupChat requires at least 2 agents" ∧
    ∃ gc, mkGroupChat { agents := [contAgent1, contAgent2] } = .ok gc :=
  ⟨(mkGroupChat_arity { agents := [contAgent1] }).1 (by decide),
   (mkGroupChat_arity { agents := [contAgent1, contAgent2] }).2 (by decide)⟩

/-- C6: `clearHistory` leaves the history equal to the single system-role
message holding the configured system prompt when one is configured, and
empty when none is configured. -/
theorem clearHistory_spec (a : AgentState) (s : String) :
    (a.systemMessage = some s →
      (clearHistory a).conversationHistory = [{ role := .system, content := s }]) ∧
    (a.systemMessage = none → (clearHistory a).conversationHistory = []) := by
  constructor <;> intro h <;> simp [clearHistory, h]

/-- C6 witness: the theorem applied to an agent with the test suite's
system prompt and non-trivial history, and to an agent without one. -/
theorem clearHistory_spec_witness :
    (clearHistory sysAgent).conversationHistory
      = [{ role := .system, content := "System prompt" }] ∧
    (clearHistory { name := "test_agent" }).conversationHistory = [] :=
  ⟨(clearHistory_spec sysAgent "System prompt").1 rfl,
   (clearHistory_spec { name := "test_agent" } "").2 rfl⟩

/-- C7: `getConversationHistory()`, `getMessages()` and `getAgents()` each
return a defensive copy independent of internal state: overwriting the
returned array does not change the result of a subsequent call to the same
accessor (which keeps returning the internal contents), while the
overwrite does take effect on the returned copy. -/
theorem accessors_defensive (a : AgentState) (gc : GroupChat)
    (stH stM : Store (List Message)) (stA : Store (List AgentBeh))
    (mutH mutM : List Message) (mutA : List AgentBeh) :
    ((getConversationHistory a
        ((getConversationHistory a stH).1.write (getConversationHistory a stH).2 mutH)).1.read
      (getConversationHistory a
        ((getConversationHistory a stH).1.write (getConversationHistory a stH).2 mutH)).2 []
      = a.conversationHistory
    ∧ ((getConversationHistory a stH).1.write (getConversationHistory a stH).2 mutH).read
        (getConversationHistory a stH).2 [] = mutH) ∧
    ((gc.getMessages ((gc.getMessages stM).1.write (gc.getMessages stM).2 mutM)).1.read
      (gc.getMessages ((gc.getMessages stM).1.write (gc.getMessages stM).2 mutM)).2 []
      = gc.messages
    ∧ ((gc.getMessages stM).1.write (gc.getMessages stM).2 mutM).read
        (gc.getMessages stM).2 [] = mutM) ∧
    ((gc.getAgents ((gc.getAgents stA).1.write (gc.getAgents stA).2 mutA)).1.read
      (gc.getAgents ((gc.getAgents stA).1.write (gc.getAgents stA).2 mutA)).2 []
      = gc.agents
    ∧ ((gc.getAgents stA).1.write (gc.getAgents stA).2 mutA).read
        (gc.getAgents stA).2 [] = mutA) := by
  simp only [getConversationHistory, GroupChat.getMessages, GroupChat.getAgents]
  exact ⟨⟨store_alloc_read _ _ _, store_write_alloc_read _ _ _ _⟩,
         ⟨store_alloc_read _ _ _, store_write_alloc_read _ _ _ _⟩,
         ⟨store_alloc_read _ _ _, store_write_alloc_read _ _ _ _⟩⟩

/-- C8: `send(msg, recipient, requestReply := false)` appends the
normalized message to the sender's own history, returns no reply, never
invokes the recipient's reply capability (invocation count 0), and its
outcome is independent of the recipient's reply behaviour. -/
theorem send_requestReply_false (sender : AgentState) (input : SendInput)
    (rb rb2 : List Message → Message) (rh rh2 : List Message) :
    (send sender input rb rh false).1.conversationHistory
      = sender.conversationHistory ++ [normalizeMessage input] ∧
    (send sender input rb rh false).2.1 = none ∧
    (send sender input rb rh false).2.2 = 0 ∧
    send sender input rb rh false = send sender input rb2 rh2 false :=
  ⟨rfl, rfl, rfl, rfl⟩

/-- C10: on every successful provider outcome, `AssistantAgent.generateReply`
appends the produced assistant-role reply tagged with the agent's own name
to the agent's own history before returning it, so the history grows by
exactly one message. -/
theorem generateReplyA_success (a : AgentState) (pr : Except String String)
    (c : String) (h : pr = .ok c) :
    generateReplyA a pr =
      (addToHistory a { role := .assistant, content := c, name := some a.name },
        .ok { role := .assistant, content := c, name := some a.name }) ∧
    (generateReplyA a pr).1.conversationHistory
      = a.conversationHistory ++ [{ role := .assistant, content := c, name := some a.name }] ∧
    (generateReplyA a pr).1.conversationHistory.length
      = a.conversationHistory.length + 1 := by
  subst h
  exact ⟨rfl, rfl, by simp [generateReplyA, addToHistory]⟩

/-- C10 witness: the theorem applied to a concrete successful provider
outcome. -/
theorem generateReplyA_success_witness :
    (generateReplyA { name := "assistant" } (.ok "hi")).1.conversationHistory
      = [{ role := .assistant, content := "hi", name := some "assistant" }] :=
  ((generateReplyA_success { name := "assistant" } (.ok "hi") "hi" rfl).2.1).trans (by decide)

theorem chatStep_succ_of_not_term (s r : AgentBeh) (fuel : Nat) (cur : Message)
    (acc : List Message) (h : isTerminationMessage cur = false) :
    chatStep s r (fuel + 1) cur acc
      = chatStep r s fuel (r.reply ((cur :: acc).reverse)) (cur :: acc) := by
  simp only [chatStep, h, Bool.false_eq_true, if_false]

theorem chatStep_succ_of_term (s r : AgentBeh) (fuel : Nat) (cur : Message)
    (acc : List Message) (h : isTerminationMessage cur = true) :
    chatStep s r (fuel + 1) cur acc = (cur :: acc).reverse := by
  simp only [chatStep, h, if_true]

theorem runLoop_succ_of_not_term (agents : List AgentBeh) (i fuel : Nat) (t : List Message)
    (h : isTerminationMessage (tagReply (agents.getD (i % agents.length) defaultAgentBeh) t)
      = false) :
    runLoop agents i (fuel + 1) t
      = runLoop agents (i + 1) fuel
          (t ++ [tagReply (agents.getD (i % agents.length) defaultAgentBeh) t]) := by
  simp only [runLoop, h, Bool.false_eq_true, if_false]

theorem runLoop_succ_of_term (agents : List AgentBeh) (i fuel : Nat) (t : List Message)
    (h : isTerminationMessage (tagReply (agents.getD (i % agents.length) defaultAgentBeh) t)
      = true) :
    runLoop agents i (fuel + 1) t
      = t ++ [tagReply (agents.getD (i % agents.length) defaultAgentBeh) t] := by
  simp only [runLoop, h, if_true]

theorem chatStep_length_le : ∀ (fuel : Nat) (s r : AgentBeh) (cur : Message)
    (acc : List Message), (chatStep s r fuel cur acc).length ≤ acc.length + fuel
  | 0, s, r, cur, acc => by simp [chatStep]
  | fuel + 1, s, r, cur, acc => by
    cases h : isTerminationMessage cur with
    | true =>
      rw [chatStep_succ_of_term s r fuel cur acc h]
      have : ((cur :: acc).reverse).length = acc.length + 1 := by simp
      rw [this]
      omega
    | false =>
      rw [chatStep_succ_of_not_term s r fuel cur acc h]
      have ih := chatStep_length_le fuel r s (r.reply ((cur :: acc).reverse)) (cur :: acc)
      simp only [List.length_cons] at ih
      omega

theorem chatStep_length_eq : ∀ (fuel : Nat) (s r : AgentBeh) (cur : Message)
    (acc : List Message),
    (∀ m ∈ chatStep s r fuel cur acc, isTerminationMessage m = false) →
    (chatStep s r fuel cur acc).length = acc.length + fuel
  | 0, s, r, cur, acc => by
    intro _
    simp [chatStep]
  | fuel + 1, s, r, cur, acc => by
    intro hall
    cases h : isTerminationMessage cur with
    | true =>
      exfalso
      have hcur : cur ∈ chatStep s r (fuel + 1) cur acc := by
        rw [chatStep_succ_of_term s r fuel cur acc h]
        simp
      have hfalse := hall cur hcur
      rw [h] at hfalse
      exact Bool.noConfusion hfalse
    | false =>
      rw [chatStep_succ_of_not_term s r fuel cur acc h] at hall ⊢
      have ih := chatStep_length_eq fuel r s (r.reply ((cur :: acc).reverse)) (cur :: acc) hall
      simp only [List.length_cons] at ih
      omega

theorem chatStep_dropLast : ∀ (fuel : Nat) (s r : AgentBeh) (cur : Message)
    (acc : List Message),
    (∀ m ∈ acc, isTerminationMessage m = false) →
    ∀ m ∈ (chatStep s r fuel cur acc).dropLast, isTerminationMessage m = false
  | 0, s, r, cur, acc => by
    intro hacc m hm
    simp only [chatStep] at hm
    exact hacc m (List.mem_reverse.mp (List.dropLast_subset _ hm))
  | fuel + 1, s, r, cur, acc => by
    intro hacc m hm
    cases h : isTerminationMessage cur with
    | true =>
      rw [chatStep_succ_of_term s r fuel cur acc h, List.reverse_cons,
        List.dropLast_concat] at hm
      exact hacc m (List.mem_reverse.mp hm)
    | false =>
      rw [chatStep_succ_of_not_term s r fuel cur acc h] at hm
      refine chatStep_dropLast fuel r s (r.reply ((cur :: acc).reverse)) (cur :: acc) ?_ m hm
      intro x hx
      rcases List.mem_cons.mp hx with rfl | hx2
      · exact h
      · exact hacc x hx2

theorem mem_dropLast_or_last {α : Type} : ∀ (l : List α) (m : α), m ∈ l →
    m ∈ l.dropLast ∨ l.getLast? = some m
  | [], m, h => absurd h (List.not_mem_nil m)
  | [a], m, h => by
    right
    simp only [List.mem_singleton] at h
    simp [h]
  | a :: b :: t, m, h => by
    rcases List.mem_cons.mp h with rfl | h2
    · left
      rw [List.dropLast_cons₂]
      exact List.mem_cons_self _ _
    · rcases mem_dropLast_or_last (b :: t) m h2 with h3 | h3
      · left
        rw [List.dropLast_cons₂]
        exact List.mem_cons_of_mem _ h3
      · right
        rw [List.getLast?_cons_cons]
        exact h3

theorem runLoop_rest : ∀ (fuel : Nat) (agents : List AgentBeh) (i : Nat) (t : List Message),
    ∃ rest, runLoop agents i fuel t = t ++ rest ∧
      (∀ m ∈ rest.dropLast, isTerminationMessage m = false) ∧
      (∀ m ∈ rest, isTerminationMessage m = true → rest.getLast? = some m)
  | 0, agents, i, t => ⟨[], by simp [runLoop], by simp, by simp⟩
  | fuel + 1, agents, i, t => by
    cases h : isTerminationMessage
        (tagReply (agents.getD (i % agents.length) defaultAgentBeh) t) with
    | true =>
      refine ⟨[tagReply (agents.getD (i % agents.length) defaultAgentBeh) t],
        runLoop_succ_of_term agents i fuel t h, by simp, ?_⟩
      intro m hm _
      simp only [List.mem_singleton] at hm
      simp [hm]
    | false =>
      obtain ⟨rest, h1, h2, h3⟩ := runLoop_rest fuel agents (i + 1)
        (t ++ [tagReply (agents.getD (i % agents.length) defaultAgentBeh) t])
      refine ⟨tagReply (agents.getD (i % agents.length) defaultAgentBeh) t :: rest, ?_, ?_, ?_⟩
      · rw [runLoop_succ_of_not_term agents i fuel t h, h1, List.append_assoc]
        rfl
      · intro m hm
        cases rest with
        | nil =>
          simp at hm
        | cons x xs =>
          rw [List.dropLast_cons₂] at hm
          rcases List.mem_cons.mp hm with rfl | hm2
          · exact h
          · exact h2 m hm2
      · intro m hm ht
        rcases List.mem_cons.mp hm with rfl | hm2
        · rw [ht] at h
          exact Bool.noConfusion h
        · have h4 := h3 m hm2 ht
          cases rest with
          | nil => exact absurd hm2 (List.not_mem_nil m)
          | cons x xs =>
            rw [List.getLast?_cons_cons]
            exact h4

theorem getD_mem {α : Type} (l : List α) (n : Nat) (d : α) (h : n < l.length) :
    l.getD n d ∈ l := by
  rw [List.getD_eq_getElem l d h]
  exact List.getElem_mem h

theorem runLoop_length (agents : List AgentBeh)
    (hb : ∀ a ∈ agents, ∀ tr, isTerminationMessage (tagReply a tr) = false)
    (hN : 0 < agents.length) :
    ∀ (fuel i : Nat) (t : List Message),
      (runLoop agents i fuel t).length = t.length + fuel := by
  intro fuel
  induction fuel with
  | zero =>
    intro i t
    simp [runLoop]
  | succ n ih =>
    intro i t
    have hmem : agents.getD (i % agents.length) defaultAgentBeh ∈ agents :=
      getD_mem _ _ _ (Nat.mod_lt _ hN)
    rw [runLoop_succ_of_not_term agents i n t (hb _ hmem t),
      ih (i + 1) (t ++ [tagReply (agents.getD (i % agents.length) defaultAgentBeh) t])]
    simp only [List.length_append, List.length_cons, List.length_nil]
    omega

theorem runLoop_speaker_name (agents : List AgentBeh)
    (hb : ∀ a ∈ agents, ∀ tr, isTerminationMessage (tagReply a tr) = false)
    (hN : 0 < agents.length) :
    ∀ (fuel i : Nat) (t : List Message) (j : Nat), j < fuel →
      ((runLoop agents i fuel t)[t.length + j]?).map Message.name
        = some (some ((agents.getD ((i + j) % agents.length) defaultAgentBeh).name)) := by
  intro fuel
  induction fuel with
  | zero =>
    intro i t j hj
    exact absurd hj (Nat.not_lt_zero j)
  | succ n ih =>
    intro i t j hj
    have hmem : agents.getD (i % agents.length) defaultAgentBeh ∈ agents :=
      getD_mem _ _ _ (Nat.mod_lt _ hN)
    have hterm := hb _ hmem t
    rw [runLoop_succ_of_not_term agents i n t hterm]
    cases j with
    | zero =>
      obtain ⟨rest, hrest, -, -⟩ := runLoop_rest n agents (i + 1)
        (t ++ [tagReply (agents.getD (i % agents.length) defaultAgentBeh) t])
      rw [hrest]
      simp only [Nat.add_zero]
      have h1 : ((t ++ [tagReply (agents.getD (i % agents.length) defaultAgentBeh) t])
            ++ rest)[t.length]?
          = some (tagReply (agents.getD (i % agents.length) defaultAgentBeh) t) := by
        rw [List.getElem?_append]
        simp [List.getElem?_concat_length, List.length_append]
      rw [h1]
      simp [tagReply]
    | succ jj =>
      have harith : t.length + (jj + 1)
          = (t ++ [tagReply (agents.getD (i % agents.length) defaultAgentBeh) t]).length
            + jj := by
        simp only [List.length_append, List.length_cons, List.length_nil]
        omega
      have harith2 : (i + (jj + 1)) % agents.length = (i + 1 + jj) % agents.length := by
        have heq : i + (jj + 1) = i + 1 + jj := by omega
        rw [heq]
      rw [harith, harith2]
      exact ih (i + 1)
        (t ++ [tagReply (agents.getD (i % agents.length) defaultAgentBeh) t]) jj
        (Nat.lt_of_succ_lt_succ hj)

/-- C2: in a two-party `initiateChat(recipient, msg, maxRounds)` exchange
the returned sequence never exceeds `maxRounds` messages, and when no
exchanged message signals termination its length is exactly `maxRounds`. -/
theorem initiateChat_maxRounds (A B : AgentBeh) (seed : String) (maxRounds : Nat) :
    (initiateChat A B seed maxRounds).length ≤ maxRounds ∧
    ((∀ m ∈ initiateChat A B seed maxRounds, isTerminationMessage m = false) →
      (initiateChat A B seed maxRounds).length = maxRounds) := by
  constructor
  · simpa [initiateChat] using
      chatStep_length_le maxRounds A B { role := .user, content := seed } []
  · intro h
    simpa [initiateChat] using
      chatStep_length_eq maxRounds A B { role := .user, content := seed } [] h

/-- C2 witness: two always-"Continue" mocks with `maxRounds = 3` exchange
exactly 3 messages. -/
theorem initiateChat_maxRounds_witness :
    (initiateChat contAgent1 contAgent2 "Start" 3).length = 3 :=
  (initiateChat_maxRounds contAgent1 contAgent2 "Start" 3).2 (by decide)

/-- C3: in both conversation loops a message satisfying the termination
predicate can only be the last recorded one: every earlier message of the
two-party exchange (and every produced group reply before the last) is
non-terminating, and any terminating exchanged/produced message is exactly
the final message of the returned sequence. -/
theorem termination_stops_loops
    (A B : AgentBeh) (seed : String) (maxRounds : Nat)
    (gc : GroupChat) (initMsg : String) (hempty : gc.messages = []) :
    ((∀ m ∈ (initiateChat A B seed maxRounds).dropLast, isTerminationMessage m = false) ∧
     (∀ m ∈ initiateChat A B seed maxRounds, isTerminationMessage m = true →
        (initiateChat A B seed maxRounds).getLast? = some m)) ∧
    ((∀ m ∈ ((gc.run initMsg).2.drop 1).dropLast, isTerminationMessage m = false) ∧
     (∀ m ∈ (gc.run initMsg).2.drop 1, isTerminationMessage m = true →
        (gc.run initMsg).2.getLast? = some m)) := by
  have htp : ∀ m ∈ (initiateChat A B seed maxRounds).dropLast,
      isTerminationMessage m = false := by
    intro m hm
    refine chatStep_dropLast maxRounds A B { role := .user, content := seed } [] ?_ m hm
    intro x hx
    simp at hx
  have hrun : (gc.run initMsg).2
      = runLoop gc.agents 0 gc.maxRound [{ role := .user, content := initMsg }] := by
    simp [GroupChat.run, hempty]
  obtain ⟨rest, hrest, hrest2, hrest3⟩ :=
    runLoop_rest gc.maxRound gc.agents 0 [{ role := .user, content := initMsg }]
  have hdrop : (gc.run initMsg).2.drop 1 = rest := by
    rw [hrun, hrest]
    simp
  refine ⟨⟨htp, ?_⟩, ?_, ?_⟩
  · intro m hm ht
    rcases mem_dropLast_or_last _ m hm with h1 | h1
    · rw [htp m h1] at ht
      exact Bool.noConfusion ht
    · exact h1
  · intro m hm
    rw [hdrop] at hm
    exact hrest2 m hm
  · intro m hm ht
    rw [hdrop] at hm
    have hlast := hrest3 m hm ht
    rw [hrun, hrest]
    cases rest with
    | nil => exact absurd hm (List.not_mem_nil m)
    | cons x xs =>
      show (({ role := .user, content := initMsg } : Message) :: x :: xs).getLast? = some m
      rw [List.getLast?_cons_cons]
      exact hlast

/-- C3 witness: with a responder whose reply embeds "TERMINATE" the
two-party exchange ends on that reply, and a group session whose first
speaker replies "TERMINATE" ends on that reply. -/
theorem termination_stops_loops_witness :
    (initiateChat contAgent1 termAgent "Start" 10).getLast?
      = some { role := .assistant, content := "TERMINATE", name := some "agent2" } ∧
    (termGroupChat.run "Start").2.getLast?
      = some { role := .assistant, content := "TERMINATE", name := some "agent1" } :=
  ⟨(termination_stops_loops contAgent1 termAgent "Start" 10 termGroupChat "Start" rfl).1.2
      { role := .assistant, content := "TERMINATE", name := some "agent2" }
      (by decide) (by decide),
   (termination_stops_loops contAgent1 termAgent "Start" 10 termGroupChat "Start" rfl).2.2
      { role := .assistant, content := "TERMINATE", name := some "agent1" }
      (by decide) (by decide)⟩

/-- C5: in a fresh group session with at least 2 participants and no early
termination, the transcript holds the seed plus exactly `maxRound`
replies, and the reply of round `k` (1-indexed) carries the name of
`participants[(k-1) mod N]`. -/
theorem groupChat_round_robin (gc : GroupChat) (initMsg : String)
    (hN : 2 ≤ gc.agents.length) (hempty : gc.messages = [])
    (hb : ∀ a ∈ gc.agents, ∀ tr, isTerminationMessage (tagReply a tr) = false) :
    (gc.run initMsg).2.length = gc.maxRound + 1 ∧
    ∀ k, 1 ≤ k → k ≤ gc.maxRound →
      (((gc.run initMsg).2)[k]?).map Message.name
        = some (some ((gc.agents.getD ((k - 1) % gc.agents.length)
            defaultAgentBeh).name)) := by
  have hN0 : 0 < gc.agents.length := by omega
  have hrun : (gc.run initMsg).2
      = runLoop gc.agents 0 gc.maxRound [{ role := .user, content := initMsg }] := by
    simp [GroupChat.run, hempty]
  constructor
  · rw [hrun, runLoop_length gc.agents hb hN0 gc.maxRound 0
      [{ role := .user, content := initMsg }]]
    simp only [List.length_cons, List.length_nil]
    omega
  · intro k hk1 hk2
    obtain ⟨j, rfl⟩ : ∃ j, k = j + 1 := ⟨k - 1, by omega⟩
    rw [hrun]
    have hmain := runLoop_speaker_name gc.agents hb hN0 gc.maxRound 0
      [{ role := .user, content := initMsg }] j (by omega)
    simp only [List.length_cons, List.length_nil, Nat.zero_add] at hmain
    rw [Nat.add_comm 1 j] at hmain
    simpa using hmain

/-- C5 witness: the three-participant demo session with round budget 5:
6 transcript entries, and round 4 wraps around to the first participant. -/
theorem groupChat_round_robin_witness :
    (demoGroupChat.run "Start").2.length = 5 + 1 ∧
    (((demoGroupChat.run "Start").2)[4]?).map Message.name
      = some (some ((demoGroupChat.agents.getD
          ((4 - 1) % demoGroupChat.agents.length) defaultAgentBeh).name)) := by
  have hb : ∀ a ∈ demoGroupChat.agents, ∀ tr,
      isTerminationMessage (tagReply a tr) = false := by
    intro a ha tr
    fin_cases ha
    · exact (by decide :
        isTerminationMessage { role := .assistant, content := "r1", name := some "a1" } = false)
    · exact (by decide :
        isTerminationMessage { role := .assistant, content := "r2", name := some "a2" } = false)
    · exact (by decide :
        isTerminationMessage { role := .assistant, content := "r3", name := some "a3" } = false)
  have h := groupChat_round_robin demoGroupChat "Start" (by decide) rfl hb
  exact ⟨h.1, h.2 4 (by decide) (by decide)⟩

theorem chatStepE_error_src : ∀ (fuel : Nat) (s r : AgentBehE) (cur : Message)
    (acc t : List Message) (e : String),
    chatStepE s r fuel cur acc = (t, some e) →
    ∃ p, (p = s ∨ p = r) ∧ p.replyE t = .error e
  | 0, s, r, cur, acc, t, e => by
    intro h
    simp [chatStepE] at h
  | fuel + 1, s, r, cur, acc, t, e => by
    intro h
    cases hterm : isTerminationMessage cur with
    | true =>
      rw [show chatStepE s r (fuel + 1) cur acc = ((cur :: acc).reverse, none) from by
        simp only [chatStepE, hterm, if_true]] at h
      simp at h
    | false =>
      cases hreply : r.replyE ((cur :: acc).reverse) with
      | error e2 =>
        rw [show chatStepE s r (fuel + 1) cur acc = ((cur :: acc).reverse, some e2) from by
          simp only [chatStepE, hterm, Bool.false_eq_true, if_false]
          rw [hreply]] at h
        rw [Prod.mk.injEq] at h
        obtain ⟨h1, h2⟩ := h
        have he : e2 = e := Option.some.inj h2
        subst h1
        subst he
        exact ⟨r, Or.inr rfl, hreply⟩
      | ok rep =>
        rw [show chatStepE s r (fuel + 1) cur acc = chatStepE r s fuel rep (cur :: acc) from by
          simp only [chatStepE, hterm, Bool.false_eq_true, if_false]
          rw [hreply]] at h
        obtain ⟨p, hp, hpe⟩ := chatStepE_error_src fuel r s rep (cur :: acc) t e h
        exact ⟨p, hp.symm, hpe⟩

/-- C9: every failure raised by a participant's reply generation
propagates: `AssistantAgent.generateReply` wraps the provider's error as
"Failed to generate reply: <cause>" without touching the history; `send`
surfaces the recipient's error unchanged while the already-sent message
stays in the sender's history; in the two-party loop, at any reachable
state, a turn whose reply call fails halts the loop at once, returning
exactly the messages recorded before the failing turn together with the
unaltered error, while a successful turn merely advances the loop; and
whenever a run reports an error, that error is exactly the one returned by
one of the two participants invoked on the returned transcript — never
swallowed, retried, or replaced by a default reply. -/
theorem generateReply_failure_propagation
    (a : AgentState) (e : String)
    (sender : AgentState) (input : SendInput) (rh : List Message)
    (rb : List Message → Except String Message)
    (hrb : rb (rh ++ [normalizeMessage input]) = .error e)
    (s r A B : AgentBehE) (cur rep : Message) (acc t : List Message)
    (fuel : Nat) (seed : String) (e' e2 : String) :
    generateReplyA a (.error e) = (a, .error ("Failed to generate reply: " ++ e)) ∧
    sendE sender input rb rh true
      = (addToHistory sender (normalizeMessage input), .error e) ∧
    (isTerminationMessage cur = false →
      r.replyE ((cur :: acc).reverse) = .error e' →
      chatStepE s r (fuel + 1) cur acc = ((cur :: acc).reverse, some e')) ∧
    (isTerminationMessage cur = false →
      r.replyE ((cur :: acc).reverse) = .ok rep →
      chatStepE s r (fuel + 1) cur acc = chatStepE r s fuel rep (cur :: acc)) ∧
    (initiateChatE A B seed fuel = (t, some e2) →
      ∃ p, (p = A ∨ p = B) ∧ p.replyE t = .error e2) := by
  refine ⟨rfl, ?_, ?_, ?_, ?_⟩
  · have hstep : sendE sender input rb rh true
        = match rb (rh ++ [normalizeMessage input]) with
          | .error e0 => (addToHistory sender (normalizeMessage input), .error e0)
          | .ok reply =>
            (addToHistory (addToHistory sender (normalizeMessage input)) reply,
              .ok (some reply)) := rfl
    rw [hstep, hrb]
  · intro hterm herr
    simp only [chatStepE, hterm, Bool.false_eq_true, if_false]
    rw [herr]
  · intro hterm hok
    simp only [chatStepE, hterm, Bool.false_eq_true, if_false]
    rw [hok]
  · intro h
    exact chatStepE_error_src fuel A B { role := .user, content := seed } [] t e2 h

/-- C9 witness: a concrete run in which the initiator's own backend fails
on its turn after a successful first turn: the wrapper string, the send
propagation, the halt at the failing second turn (keeping the seed and the
successful first reply), the advancing successful first turn, and the
attribution of the reported error to a participant's own failing call on
the returned transcript. -/
theorem generateReply_failure_propagation_witness :
    generateReplyA { name := "assistant" } (.error "boom")
      = ({ name := "assistant" }, .error ("Failed to generate reply: " ++ "boom")) ∧
    sendE { name := "test_agent" } (.str "Hello") (fun _ => .error "boom") [] true
      = (addToHistory { name := "test_agent" } (normalizeMessage (.str "Hello")),
          .error "boom") ∧
    chatStepE okAgent failingAgent 9
        { role := .assistant, content := "hi", name := some "agent1" }
        [{ role := .user, content := "Start" }]
      = ([{ role := .user, content := "Start" },
          { role := .assistant, content := "hi", name := some "agent1" }], some "boom") ∧
    chatStepE failingAgent okAgent 10 { role := .user, content := "Start" } []
      = chatStepE okAgent failingAgent 9
          { role := .assistant, content := "hi", name := some "agent1" }
          [{ role := .user, content := "Start" }] ∧
    ∃ p, (p = failingAgent ∨ p = okAgent) ∧
      p.replyE [{ role := .user, content := "Start" },
        { role := .assistant, content := "hi", name := some "agent1" }] = .error "boom" := by
  have h1 := generateReply_failure_propagation { name := "assistant" } "boom"
    { name := "test_agent" } (.str "Hello") [] (fun _ => .error "boom") rfl
    okAgent failingAgent failingAgent okAgent
    { role := .assistant, content := "hi", name := some "agent1" }
    { role := .assistant, content := "hi", name := some "agent1" }
    [{ role := .user, content := "Start" }]
    [{ role := .user, content := "Start" },
     { role := .assistant, content := "hi", name := some "agent1" }]
    8 "Start" "boom" "boom"
  have h2 := generateReply_failure_propagation { name := "assistant" } "boom"
    { name := "test_agent" } (.str "Hello") [] (fun _ => .error "boom") rfl
    failingAgent okAgent failingAgent okAgent
    { role := .user, content := "Start" }
    { role := .assistant, content := "hi", name := some "agent1" }
    [] [] 9 "Start" "boom" "boom"
  refine ⟨h1.1, h1.2.1, ?_, ?_, ?_⟩
  · exact h1.2.2.1 (by decide) rfl
  · exact h2.2.2.2.1 (by decide) rfl
  · exact h1.2.2.2.2 (by decide)
